import Mathlib

/-!
DCS-BESS: signal listener, command line and resource loop

A shallow embedding of `src/build/src/ServerListener.cpp` and of the
`CommandLineInterface` / `ResourceLoop` functions of `src/build/src/main.cpp`,
followed by the properties established about them.

Conventions of the embedding:

* member functions become functions from the object state to the new state;
  what they write to standard output or ask of the bus is returned as a list
  of `Effect`s (listener) or `Event`s (command line), in program order;
* `uint32_t` / `unsigned int` values are `Nat`, `int32_t` values are `Int`;
* clock readings are whole nanoseconds (the tick of
  `std::chrono::high_resolution_clock`), and a `duration<double, milli>` is
  the exact quotient of a nanosecond count by `10^6`.
-/

set_option autoImplicit false
set_option linter.unusedVariables false

deriving instance DecidableEq for Except

namespace DCSBESS

/-! ## AllJoyn message arguments -/

/-- Modelled from the spec: the AllJoyn message argument `ajn::MsgArg` (library
type, not under `src/`), the "typed-variant" values of a property delta. Each
constructor is one D-Bus type: `i`, `u`, `s`, `b`, `d`, `v`, a dictionary entry
`{kv}`, an array `a` with its element signature, and a struct `(...)`. -/
inductive MsgArg where
  | int32 (v : Int)
  | uint32 (v : Nat)
  | string (s : String)
  | boolean (b : Bool)
  | double (num : Int) (den : Nat)
  | variant (val : MsgArg)
  | dictEntry (key : MsgArg) (val : MsgArg)
  | array (elemSig : String) (elems : List MsgArg)
  | struct (members : List MsgArg)

namespace MsgArg

/-- Modelled from the spec: `MsgArg::Get("a{sv}", &nelem, &elems)`. It is
`ER_OK` exactly on an array whose element signature is `{sv}`; on any other
argument it fails and writes nothing. -/
def getDict : MsgArg → Option (List MsgArg)
  | array elemSig elems => if elemSig = "{sv}" then some elems else none
  | _ => none

/-- Modelled from the spec: `MsgArg::Get("{sv}", &name, &val)`. It is `ER_OK`
exactly on a dictionary entry with a string key and a variant value, and then
yields the key and the argument held by the variant. -/
def getEntry : MsgArg → Option (String × MsgArg)
  | dictEntry (string name) (variant val) => some (name, val)
  | _ => none

/-- Modelled from the spec: `MsgArg::Get("i", &out)`. On a type mismatch it
fails and leaves `out` untouched. -/
def getInt32 : MsgArg → Option Int
  | int32 v => some v
  | _ => none

/-- Modelled from the spec: `MsgArg::Get("u", &out)`. On a type mismatch it
fails and leaves `out` untouched. -/
def getUInt32 : MsgArg → Option Nat
  | uint32 v => some v
  | _ => none

end MsgArg

/-! ## ServerListener.cpp -/

/-- The part of `ajn::ProxyBusObject` the listener reads. -/
structure ProxyBusObject where
  uniqueName : String
  path : String
  deriving DecidableEq

/-- What a listener callback does besides updating its members. -/
inductive Effect where
  | printf (text : String)
  | EnableConcurrentCallbacks
  | RegisterPropertiesChangedListener (proxy : ProxyBusObject) (iface : String)
      (properties : List String)
  deriving DecidableEq

/-- Data members of `ServerListener` (the bus and observer pointers are only
passed on to the library and carry no state of the listener). -/
structure ServerListener where
  server_interface_ : String
  time_ : Nat
  price_ : Int
  deriving DecidableEq

namespace ServerListener

/-- Constructor `ServerListener::ServerListener`. -/
def new (server_name : String) : ServerListener :=
  { server_interface_ := server_name, time_ := 0, price_ := 0 }

/-- Static member `ServerListener::props`. -/
def props : List String := ["EMSName", "Time", "price"]

/-- `ServerListener::ObjectDiscovered`. -/
def ObjectDiscovered (self : ServerListener) (proxy : ProxyBusObject) :
    ServerListener × List Effect :=
  (self,
    [ Effect.printf ("[LISTENER] : " ++ proxy.uniqueName ++ " has been discovered\n"),
      Effect.EnableConcurrentCallbacks,
      Effect.RegisterPropertiesChangedListener proxy self.server_interface_ props ])

/-- `ServerListener::ObjectLost`. -/
def ObjectLost (self : ServerListener) (proxy : ProxyBusObject) :
    ServerListener × List Effect :=
  (self,
    [ Effect.printf ("[LISTENER] : " ++ proxy.uniqueName ++ " connection lost\n"),
      Effect.printf ("\tPath : " ++ proxy.path ++ " no longer exists\n") ])

/-- Body of the `for` loop of `PropertiesChanged` for one element. The status
of the inner `val->Get` is assigned and never read. -/
def changeEntry (self : ServerListener) (elem : MsgArg) : ServerListener × List Effect :=
  match elem.getEntry with
  | some (name, val) =>
    if name = "price" then
      match val.getInt32 with
      | some v => ({ self with price_ := v }, [])
      | none => (self, [])
    else if name = "Time" then
      match val.getUInt32 with
      | some v => ({ self with time_ := v }, [])
      | none => (self, [])
    else (self, [])
  | none => (self, [Effect.printf "[LISTENER] : invalid property change!\n"])

/-- The `for` loop of `PropertiesChanged` over `elems[0 .. nelem)`. -/
def changeEntries (self : ServerListener) : List MsgArg → ServerListener × List Effect
  | [] => (self, [])
  | elem :: rest =>
    let r := changeEntry self elem
    let s := changeEntries r.1 rest
    (s.1, r.2 ++ s.2)

/-- `ServerListener::PropertiesChanged`. The arguments `obj`, `interface_name`
and `invalidated` are not read. -/
def PropertiesChanged (self : ServerListener) (obj : ProxyBusObject)
    (interface_name : String) (changed : MsgArg) (invalidated : MsgArg) :
    ServerListener × List Effect :=
  match changed.getDict with
  | some elems => changeEntries self elems
  | none => (self, [])

end ServerListener

/-- The `{time, price}` pair of the spec's data model. -/
structure SignalSample where
  time : Nat
  price : Int
  deriving DecidableEq

/-- The sample a listener holds for a publisher. The class has one
`time_` / `price_` pair and no table keyed by publisher, and `main` registers
one listener for every discovered object, so the pair is the same for all. -/
def storedSample (l : ServerListener) (publisher : ProxyBusObject) : SignalSample :=
  { time := l.time_, price := l.price_ }

/-- A change set given as named entries: the `a{sv}` argument built from
`(name, value)` pairs. -/
def delta (entries : List (String × MsgArg)) : MsgArg :=
  MsgArg.array "{sv}"
    (entries.map (fun e => MsgArg.dictEntry (MsgArg.string e.1) (MsgArg.variant e.2)))

/-! ## main.cpp: CommandLineInterface -/

/-- C `isspace` in the classic locale: the separators of `ss >> token` and the
characters `strtoul` skips. -/
def isspace (c : Char) : Bool :=
  c = ' ' || c = '\t' || c = '\n' || c = '\r' || c = Char.ofNat 11 || c = Char.ofNat 12

/-- The loop `while (ss >> token) tokens.push_back(token)`: `cur` is the token
being read. -/
def splitTokens : List Char → List Char → List String
  | [], cur => if cur = [] then [] else [String.mk cur]
  | c :: cs, cur =>
    if isspace c then
      if cur = [] then splitTokens cs [] else String.mk cur :: splitTokens cs []
    else splitTokens cs (cur ++ [c])

/-- The token vector `tokens` built from `input`. -/
def tokenize (input : String) : List String :=
  splitTokens input.data []

/-- The exceptions `std::stoul` throws. -/
inductive StoulError where
  | invalid_argument
  | out_of_range
  deriving DecidableEq

/-- Value of the leading run of decimal digits, continuing from `acc`. -/
def readDigits : List Char → Nat → Nat
  | [], acc => acc
  | c :: cs, acc =>
    if c.isDigit then readDigits cs (10 * acc + (c.toNat - 48)) else acc

/-- The digits of a number, after its sign: no digit is `invalid_argument`, a
magnitude above `ULONG_MAX` is `out_of_range`, and a number with a minus sign
is negated in the unsigned type. -/
def stoulDigits (ulongBits : Nat) (negative : Bool) (body : List Char) :
    Except StoulError Nat :=
  match body with
  | [] => Except.error StoulError.invalid_argument
  | c :: _ =>
    if c.isDigit then
      let v := readDigits body 0
      if 2 ^ ulongBits ≤ v then Except.error StoulError.out_of_range
      else Except.ok (if negative then (2 ^ ulongBits - v) % 2 ^ ulongBits else v)
    else Except.error StoulError.invalid_argument

/-- The call `std::stoul(str)` (base 10, through `strtoul`), for an
`unsigned long` of `ulongBits` bits: leading white space is skipped, then an
optional sign, then decimal digits. -/
def stoul (ulongBits : Nat) (str : String) : Except StoulError Nat :=
  match str.data.dropWhile isspace with
  | [] => Except.error StoulError.invalid_argument
  | c :: rest =>
    if c = '-' then stoulDigits ulongBits true rest
    else if c = '+' then stoulDigits ulongBits false rest
    else stoulDigits ulongBits false (c :: rest)

/-- The accessors of `DistributedEnergyResource` the command line prints. -/
inductive Getter where
  | GetExportEnergy
  | GetExportPower
  | GetImportEnergy
  | GetImportPower
  deriving DecidableEq

/-- What `CommandLineInterface` does to the resource and to standard output.
`SetImportWatts v` / `SetExportWatts v` record a call with the value `stoul`
returned; the class itself is declared in a header that is not under `src/`. -/
inductive Event where
  | SetImportWatts (v : Nat)
  | SetExportWatts (v : Nat)
  | print (text : String)
  | printValue (g : Getter)
  deriving DecidableEq

/-- Behaviour outside the language: `tokens[index]` on a vector of `size`
elements with `index ≥ size`. No `catch` handles it. -/
inductive Fault where
  | outOfBounds (index : Nat) (size : Nat)
  deriving DecidableEq

/-- Function `Help`. -/
def Help : List Event :=
  [ Event.print "\n\t[Help Menu]\n\n",
    Event.print "> q            quit\n",
    Event.print "> h            display help menu\n",
    Event.print "> i <watts>    import power\n",
    Event.print "> e <watts>    export power\n",
    Event.print "> p            print properties\n" ]

/-- The `try { DER->Set…Watts(stoul(tokens[1])); } catch(...) { … }` block of
the cases `i` and `e`; `set` is the setter called. -/
def setWatts (ulongBits : Nat) (set : Nat → Event) (tokens : List String) :
    Except Fault (Bool × List Event) :=
  match tokens[1]? with
  | none => Except.error (Fault.outOfBounds 1 tokens.length)
  | some arg =>
    match stoul ulongBits arg with
    | Except.ok v => Except.ok (false, [set v])
    | Except.error _ => Except.ok (false, [Event.print "[ERROR]: Invalid Argument.\n"])

/-- Function `CommandLineInterface`: the returned flag and the events, or the
fault the call runs into. -/
def CommandLineInterface (ulongBits : Nat) (input : String) :
    Except Fault (Bool × List Event) :=
  match input.data with
  | [] => Except.ok (false, [])
  | cmd :: _ =>
    let tokens := tokenize input
    if cmd = 'q' then Except.ok (true, [])
    else if cmd = 'i' then setWatts ulongBits Event.SetImportWatts tokens
    else if cmd = 'e' then setWatts ulongBits Event.SetExportWatts tokens
    else if cmd = 'p' then
      Except.ok (false,
        [ Event.print "\n\t[Properties]\n\n",
          Event.print "Export Energy:\t", Event.printValue Getter.GetExportEnergy,
          Event.print "\n",
          Event.print "Export Power:\t", Event.printValue Getter.GetExportPower,
          Event.print "\n",
          Event.print "Import Energy:\t", Event.printValue Getter.GetImportEnergy,
          Event.print "\n",
          Event.print "Import Power:\t", Event.printValue Getter.GetImportPower,
          Event.print "\n" ])
    else Except.ok (false, Help)

/-- The setter calls among the events of a run. -/
def setterCalls (events : List Event) : List Event :=
  events.filter (fun e =>
    match e with
    | Event.SetImportWatts _ => true
    | Event.SetExportWatts _ => true
    | _ => false)

/-- A token "begins with a decimal number" when, after an optional sign, its
first character is a decimal digit. -/
def beginsWithDecimal (token : String) : Bool :=
  match token.data with
  | [] => false
  | c :: rest =>
    if c = '-' || c = '+' then
      match rest with
      | [] => false
      | d :: _ => d.isDigit
    else c.isDigit

/-! ## main.cpp: ResourceLoop -/

/-- Conversion to `unsigned int` of the `double` whose value is `num / den`:
the fraction is discarded (truncation toward zero) and the integer is reduced
modulo `2^32`. -/
def toUnsigned (num : Int) (den : Nat) : Nat :=
  (Int.tdiv num den % 2 ^ 32).toNat

/-- Local `time_wait`. -/
def time_wait : Nat := 500

/-- Lines 181-182 of `ResourceLoop`: the value of `time_remaining` handed to
`sleep_for`, when `time_elapsed` holds `elapsed_ns` nanoseconds. -/
def sleepDuration (elapsed_ns : Int) : Nat :=
  let time_remaining := toUnsigned (time_wait * 10 ^ 6 - elapsed_ns) (10 ^ 6)
  if time_remaining > 0 then time_remaining else 0

/-- One turn of the `while` loop as seen from outside. -/
structure Cycle where
  time_past : Nat
  time_remaining : Nat
  deriving DecidableEq

/-- The `while (!done)` loop from a given `time_end`. Each element of
`readings` is one turn in which `done` was false: the clock value stored in
`time_start` and the one stored in `time_end` after `DER->Loop` returned. -/
def loopFrom (time_end : Nat) : List (Nat × Nat) → List Cycle
  | [] => []
  | (time_start, time_end_next) :: rest =>
    let time_past := toUnsigned ((time_start : Int) - (time_end : Int)) (10 ^ 6)
    let time_elapsed : Int := (time_end_next : Int) - (time_start : Int)
    { time_past := time_past, time_remaining := sleepDuration time_elapsed }
      :: loopFrom time_end_next rest

/-- Function `ResourceLoop`: `init_start` and `init_end` are the two clock
values read before the loop. -/
def ResourceLoop (init_start init_end : Nat) (readings : List (Nat × Nat)) : List Cycle :=
  loopFrom init_end readings

/-! ## Vocabulary of the properties -/

/-- The value carried by the last entry named `name` of a change set, if there
is such an entry. -/
def lastNamed (name : String) (entries : List (String × MsgArg)) : Option MsgArg :=
  (entries.reverse.find? (fun e => e.1 = name)).map (fun e => e.2)

/-- The argument is a signed 32-bit integer (`i`). -/
def isInt32 : MsgArg → Bool
  | MsgArg.int32 _ => true
  | _ => false

/-- The argument is an unsigned 32-bit integer (`u`). -/
def isUInt32 : MsgArg → Bool
  | MsgArg.uint32 _ => true
  | _ => false

/-- Every entry named "price" carries a signed 32-bit integer and every entry
named "Time" an unsigned 32-bit integer. -/
def wellTyped (entries : List (String × MsgArg)) : Bool :=
  entries.all (fun e =>
    (e.1 != "price" || isInt32 e.2) && (e.1 != "Time" || isUInt32 e.2))

/-- An element of a change set that is not a name/value pair, or that is named
"price" or "Time" and carries a value of another type than that field. -/
def malformed : MsgArg → Bool
  | MsgArg.dictEntry (MsgArg.string name) (MsgArg.variant val) =>
    (name = "price" && !isInt32 val) || (name = "Time" && !isUInt32 val)
  | _ => true

/-- No entry of the change set is named "price" or "Time". -/
def namesNeither (entries : List (String × MsgArg)) : Bool :=
  entries.all (fun e => e.1 != "price" && e.1 != "Time")

/-! ## Lemmas on the listener -/

theorem changeEntries_append (l : ServerListener) (xs ys : List MsgArg) :
    ServerListener.changeEntries l (xs ++ ys) =
      ((ServerListener.changeEntries (ServerListener.changeEntries l xs).1 ys).1,
        (ServerListener.changeEntries l xs).2 ++
          (ServerListener.changeEntries (ServerListener.changeEntries l xs).1 ys).2) := by
  induction xs generalizing l with
  | nil => simp [ServerListener.changeEntries]
  | cons x xs ih => simp [ServerListener.changeEntries, ih, List.append_assoc]

theorem changeEntries_single (l : ServerListener) (x : MsgArg) :
    ServerListener.changeEntries l [x] = ServerListener.changeEntry l x := by
  simp [ServerListener.changeEntries]

theorem lastNamed_append_single (name : String) (xs : List (String × MsgArg))
    (x : String × MsgArg) :
    lastNamed name (xs ++ [x]) = if x.1 = name then some x.2 else lastNamed name xs := by
  unfold lastNamed
  by_cases h : x.1 = name <;> simp [List.find?_cons, h]

theorem changeEntry_malformed (l : ServerListener) (bad : MsgArg)
    (h : malformed bad = true) : (ServerListener.changeEntry l bad).1 = l := by
  unfold ServerListener.changeEntry
  cases bad with
  | dictEntry key val =>
    cases key <;> cases val <;> simp [MsgArg.getEntry]
    rename_i name v
    by_cases hp : name = "price"
    · subst hp
      cases v <;> simp_all [malformed, isInt32, MsgArg.getInt32]
    · by_cases ht : name = "Time"
      · subst ht
        cases v <;> simp_all [malformed, isUInt32, MsgArg.getUInt32]
      · simp_all [malformed]
  | _ => simp [MsgArg.getEntry]

theorem changeEntries_named (entries : List (String × MsgArg)) (l : ServerListener)
    (h : wellTyped entries = true) :
    (ServerListener.changeEntries l
        (entries.map (fun e => MsgArg.dictEntry (MsgArg.string e.1) (MsgArg.variant e.2)))).1 =
      { server_interface_ := l.server_interface_,
        time_ := ((lastNamed "Time" entries).bind MsgArg.getUInt32).getD l.time_,
        price_ := ((lastNamed "price" entries).bind MsgArg.getInt32).getD l.price_ } := by
  induction entries using List.reverseRecOn with
  | nil => simp [ServerListener.changeEntries, lastNamed]
  | append_singleton xs x ih =>
    have hx : wellTyped xs = true ∧
        ((x.1 != "price" || isInt32 x.2) && (x.1 != "Time" || isUInt32 x.2)) = true := by
      simpa [wellTyped, List.all_append] using h
    rw [List.map_append, changeEntries_append, ih hx.1]
    simp only [List.map_cons, List.map_nil, changeEntries_single, lastNamed_append_single]
    obtain ⟨n, v⟩ := x
    have hx2 := hx.2
    by_cases hp : n = "price"
    · subst hp
      cases v <;> simp_all [ServerListener.changeEntry, MsgArg.getEntry, MsgArg.getInt32, isInt32]
    · by_cases ht : n = "Time"
      · subst ht
        cases v <;>
          simp_all [ServerListener.changeEntry, MsgArg.getEntry, MsgArg.getUInt32, isUInt32]
      · simp [ServerListener.changeEntry, MsgArg.getEntry, hp, ht]

theorem lastNamed_mem (name : String) (entries : List (String × MsgArg)) (v : MsgArg)
    (h : lastNamed name entries = some v) : (name, v) ∈ entries := by
  unfold lastNamed at h
  obtain ⟨e, he, hv⟩ := Option.map_eq_some'.mp h
  have hmem := List.mem_of_find?_eq_some he
  have hname := List.find?_some he
  obtain ⟨n, w⟩ := e
  simp only [decide_eq_true_eq] at hname
  simp only at hv
  subst hname
  subst hv
  simpa using hmem

theorem lastNamed_price_typed (entries : List (String × MsgArg))
    (h : wellTyped entries = true) :
    lastNamed "price" entries = none ∨ ∃ v, lastNamed "price" entries = some (MsgArg.int32 v) := by
  cases hl : lastNamed "price" entries with
  | none => exact Or.inl rfl
  | some a =>
    right
    have hmem := lastNamed_mem _ _ _ hl
    have ht := (List.all_eq_true.mp h) _ hmem
    cases a <;> simp_all [isInt32]

theorem lastNamed_Time_typed (entries : List (String × MsgArg))
    (h : wellTyped entries = true) :
    lastNamed "Time" entries = none ∨ ∃ v, lastNamed "Time" entries = some (MsgArg.uint32 v) := by
  cases hl : lastNamed "Time" entries with
  | none => exact Or.inl rfl
  | some a =>
    right
    have hmem := lastNamed_mem _ _ _ hl
    have ht := (List.all_eq_true.mp h) _ hmem
    cases a <;> simp_all [isUInt32]

/-! ## Properties of the listener -/

/-- C1: on a change set of named entries whose "price" entries carry signed
32-bit integers and whose "Time" entries carry unsigned 32-bit integers,
`PropertiesChanged` leaves `price_` equal to the value of the last "price"
entry (the prior value if there is none) and `time_` equal to the value of the
last "Time" entry (the prior value if there is none), whatever the other
entries are; the change set `[{"price": 42}]` stores price 42 and keeps the
time. -/
theorem PropertiesChanged_last_write_wins (l : ServerListener) (obj : ProxyBusObject)
    (interface_name : String) (invalidated : MsgArg) (entries : List (String × MsgArg))
    (h : wellTyped entries = true) :
    (ServerListener.PropertiesChanged l obj interface_name (delta entries) invalidated).1.price_
        = ((lastNamed "price" entries).bind MsgArg.getInt32).getD l.price_ ∧
    (ServerListener.PropertiesChanged l obj interface_name (delta entries) invalidated).1.time_
        = ((lastNamed "Time" entries).bind MsgArg.getUInt32).getD l.time_ ∧
    (lastNamed "price" entries = none ∨ ∃ v, lastNamed "price" entries = some (MsgArg.int32 v)) ∧
    (lastNamed "Time" entries = none ∨ ∃ v, lastNamed "Time" entries = some (MsgArg.uint32 v)) ∧
    (ServerListener.PropertiesChanged l obj interface_name
        (delta [("price", MsgArg.int32 42)]) invalidated).1 = { l with price_ := 42 } := by
  refine ⟨?_, ?_, ?_, ?_, ?_⟩
  · simp [ServerListener.PropertiesChanged, delta, MsgArg.getDict, changeEntries_named _ _ h]
  · simp [ServerListener.PropertiesChanged, delta, MsgArg.getDict, changeEntries_named _ _ h]
  · exact lastNamed_price_typed entries h
  · exact lastNamed_Time_typed entries h
  · simp [ServerListener.PropertiesChanged, delta, MsgArg.getDict, ServerListener.changeEntries,
      ServerListener.changeEntry, MsgArg.getEntry, MsgArg.getInt32]

/-- Witness of C1 (the change set `[{"Time": 3}, {"price": 42}, {"EMSName": "a"},
{"price": -7}]` on a fresh listener). -/
theorem PropertiesChanged_last_write_wins_witness :
    wellTyped [("Time", MsgArg.uint32 3), ("price", MsgArg.int32 42),
      ("EMSName", MsgArg.string "a"), ("price", MsgArg.int32 (-7))] = true ∧
    (ServerListener.PropertiesChanged (ServerListener.new "ems") ⟨":1.7", "/ems"⟩ "ems"
        (delta [("Time", MsgArg.uint32 3), ("price", MsgArg.int32 42),
          ("EMSName", MsgArg.string "a"), ("price", MsgArg.int32 (-7))])
        (MsgArg.array "s" [])).1.price_
      = ((lastNamed "price" [("Time", MsgArg.uint32 3), ("price", MsgArg.int32 42),
          ("EMSName", MsgArg.string "a"), ("price", MsgArg.int32 (-7))]).bind
            MsgArg.getInt32).getD 0 ∧
    ((lastNamed "price" [("Time", MsgArg.uint32 3), ("price", MsgArg.int32 42),
          ("EMSName", MsgArg.string "a"), ("price", MsgArg.int32 (-7))]).bind
            MsgArg.getInt32).getD 0 = -7 :=
  ⟨by decide,
    (PropertiesChanged_last_write_wins (ServerListener.new "ems") ⟨":1.7", "/ems"⟩ "ems"
      (MsgArg.array "s" [])
      [("Time", MsgArg.uint32 3), ("price", MsgArg.int32 42),
        ("EMSName", MsgArg.string "a"), ("price", MsgArg.int32 (-7))] (by decide)).1,
    by decide⟩

/-- C2: an element of a change set that is not a name/value pair, or a "price"
or "Time" entry whose value has another type, changes no member of the
listener, and the elements after it are applied as if it were absent; the
change set `[{"price": "bad"}, {"Time": 7}]` stores time 7 and keeps the
price. -/
theorem PropertiesChanged_skips_malformed (l : ServerListener) (obj : ProxyBusObject)
    (interface_name : String) (invalidated : MsgArg) (pre post : List MsgArg) (bad : MsgArg)
    (h : malformed bad = true) :
    (ServerListener.PropertiesChanged l obj interface_name
        (MsgArg.array "{sv}" (pre ++ [bad])) invalidated).1
      = (ServerListener.PropertiesChanged l obj interface_name
        (MsgArg.array "{sv}" pre) invalidated).1 ∧
    (ServerListener.PropertiesChanged l obj interface_name
        (MsgArg.array "{sv}" (pre ++ bad :: post)) invalidated).1
      = (ServerListener.PropertiesChanged l obj interface_name
        (MsgArg.array "{sv}" (pre ++ post)) invalidated).1 ∧
    (ServerListener.PropertiesChanged l obj interface_name
        (delta [("price", MsgArg.string "bad"), ("Time", MsgArg.uint32 7)]) invalidated).1
      = { l with time_ := 7 } := by
  refine ⟨?_, ?_, ?_⟩
  · simp [ServerListener.PropertiesChanged, MsgArg.getDict, changeEntries_append,
      changeEntries_single, changeEntry_malformed _ _ h]
  · have hcons : bad :: post = [bad] ++ post := rfl
    simp only [ServerListener.PropertiesChanged, MsgArg.getDict, if_true]
    rw [hcons, changeEntries_append, changeEntries_append, changeEntries_append,
      changeEntries_single, changeEntry_malformed _ _ h]
  · simp [ServerListener.PropertiesChanged, delta, MsgArg.getDict, ServerListener.changeEntries,
      ServerListener.changeEntry, MsgArg.getEntry, MsgArg.getInt32, MsgArg.getUInt32]

/-- Witness of C2 (a mis-typed "price" entry between a "price" entry and a
"Time" entry). -/
theorem PropertiesChanged_skips_malformed_witness :
    malformed (MsgArg.dictEntry (MsgArg.string "price") (MsgArg.variant (MsgArg.string "bad")))
      = true ∧
    (ServerListener.PropertiesChanged (ServerListener.new "ems") ⟨":1.7", "/ems"⟩ "ems"
        (MsgArg.array "{sv}"
          ([MsgArg.dictEntry (MsgArg.string "price") (MsgArg.variant (MsgArg.int32 5))] ++
            MsgArg.dictEntry (MsgArg.string "price") (MsgArg.variant (MsgArg.string "bad")) ::
            [MsgArg.dictEntry (MsgArg.string "Time") (MsgArg.variant (MsgArg.uint32 7))]))
        (MsgArg.array "s" [])).1
      = (ServerListener.PropertiesChanged (ServerListener.new "ems") ⟨":1.7", "/ems"⟩ "ems"
        (MsgArg.array "{sv}"
          ([MsgArg.dictEntry (MsgArg.string "price") (MsgArg.variant (MsgArg.int32 5))] ++
            [MsgArg.dictEntry (MsgArg.string "Time") (MsgArg.variant (MsgArg.uint32 7))]))
        (MsgArg.array "s" [])).1 :=
  ⟨by decide,
    (PropertiesChanged_skips_malformed (ServerListener.new "ems") ⟨":1.7", "/ems"⟩ "ems"
      (MsgArg.array "s" [])
      [MsgArg.dictEntry (MsgArg.string "price") (MsgArg.variant (MsgArg.int32 5))]
      [MsgArg.dictEntry (MsgArg.string "Time") (MsgArg.variant (MsgArg.uint32 7))]
      (MsgArg.dictEntry (MsgArg.string "price") (MsgArg.variant (MsgArg.string "bad")))
      (by decide)).2.1⟩

/-- C7, as stated, fails: with a fresh listener, a notification `[{"price": 42}]`
from publisher `:1.1` changes the price stored for the distinct publisher
`:1.2`. -/
theorem PropertiesChanged_shared_sample_counterexample :
    (⟨":1.1", "/a"⟩ : ProxyBusObject) ≠ ⟨":1.2", "/b"⟩ ∧
    storedSample (ServerListener.new "ems") ⟨":1.2", "/b"⟩ = { time := 0, price := 0 } ∧
    storedSample
        (ServerListener.PropertiesChanged (ServerListener.new "ems") ⟨":1.1", "/a"⟩ "ems"
          (delta [("price", MsgArg.int32 42)]) (MsgArg.array "s" [])).1
        ⟨":1.2", "/b"⟩ = { time := 0, price := 42 } ∧
    storedSample
        (ServerListener.PropertiesChanged (ServerListener.new "ems") ⟨":1.1", "/a"⟩ "ems"
          (delta [("price", MsgArg.int32 42)]) (MsgArg.array "s" [])).1
        ⟨":1.2", "/b"⟩ ≠ storedSample (ServerListener.new "ems") ⟨":1.2", "/b"⟩ := by
  decide

/-- C7, amended: the listener holds one sample for all publishers. After a
notification from `P` the sample stored for `Q` is the one stored for `P`, it
is what the same notification from `Q` would have stored, and it is the sample
stored before when no entry of the change set is named "price" or "Time". -/
theorem PropertiesChanged_one_sample_for_all (l : ServerListener) (P Q : ProxyBusObject)
    (interface_name : String) (invalidated : MsgArg) (changed : MsgArg)
    (entries : List (String × MsgArg)) (h : namesNeither entries = true) :
    storedSample (ServerListener.PropertiesChanged l P interface_name changed invalidated).1 Q
      = storedSample (ServerListener.PropertiesChanged l P interface_name changed invalidated).1 P ∧
    storedSample (ServerListener.PropertiesChanged l P interface_name changed invalidated).1 Q
      = storedSample (ServerListener.PropertiesChanged l Q interface_name changed invalidated).1 Q ∧
    storedSample
        (ServerListener.PropertiesChanged l P interface_name (delta entries) invalidated).1 Q
      = storedSample l Q := by
  refine ⟨rfl, rfl, ?_⟩
  have hw : wellTyped entries = true := by
    apply List.all_eq_true.mpr
    intro e he
    have := List.all_eq_true.mp h e he
    simp_all
  have hp : lastNamed "price" entries = none := by
    cases hl : lastNamed "price" entries with
    | none => rfl
    | some a =>
      have := List.all_eq_true.mp h _ (lastNamed_mem _ _ _ hl)
      simp at this
  have ht : lastNamed "Time" entries = none := by
    cases hl : lastNamed "Time" entries with
    | none => rfl
    | some a =>
      have := List.all_eq_true.mp h _ (lastNamed_mem _ _ _ hl)
      simp at this
  simp [storedSample, ServerListener.PropertiesChanged, delta, MsgArg.getDict,
    changeEntries_named _ _ hw, hp, ht]

/-- Witness of amended C7 (a change set `[{"EMSName": "a"}]` from `:1.1`, read
for `:1.2`). -/
theorem PropertiesChanged_one_sample_for_all_witness :
    namesNeither [("EMSName", MsgArg.string "a")] = true ∧
    storedSample
        (ServerListener.PropertiesChanged { server_interface_ := "ems", time_ := 9, price_ := 4 }
          ⟨":1.1", "/a"⟩ "ems" (delta [("EMSName", MsgArg.string "a")]) (MsgArg.array "s" [])).1
        ⟨":1.2", "/b"⟩
      = storedSample { server_interface_ := "ems", time_ := 9, price_ := 4 } ⟨":1.2", "/b"⟩ :=
  ⟨by decide,
    (PropertiesChanged_one_sample_for_all { server_interface_ := "ems", time_ := 9, price_ := 4 }
      ⟨":1.1", "/a"⟩ ⟨":1.2", "/b"⟩ "ems" (MsgArg.array "s" [])
      (delta [("EMSName", MsgArg.string "a")]) [("EMSName", MsgArg.string "a")]
      (by decide)).2.2⟩

/-- C8: `ObjectLost` changes no member of the listener, so the stored time and
price are those before it; after `ObjectDiscovered(P)`,
`PropertiesChanged(P, [{"Time": 100}])`, `ObjectLost(P)` the stored time is
100. -/
theorem ObjectLost_keeps_sample (l : ServerListener) (P : ProxyBusObject)
    (interface_name : String) (invalidated : MsgArg) :
    (ServerListener.ObjectLost l P).1 = l ∧
    storedSample (ServerListener.ObjectLost l P).1 P = storedSample l P ∧
    (ServerListener.ObjectLost
        (ServerListener.PropertiesChanged (ServerListener.ObjectDiscovered l P).1 P
          interface_name (delta [("Time", MsgArg.uint32 100)]) invalidated).1 P).1.time_ = 100 ∧
    (storedSample (ServerListener.ObjectLost
        (ServerListener.PropertiesChanged (ServerListener.ObjectDiscovered l P).1 P
          interface_name (delta [("Time", MsgArg.uint32 100)]) invalidated).1 P).1 P).time
      = 100 := by
  simp [ServerListener.ObjectLost, ServerListener.ObjectDiscovered, storedSample,
    ServerListener.PropertiesChanged, delta, MsgArg.getDict, ServerListener.changeEntries,
    ServerListener.changeEntry, MsgArg.getEntry, MsgArg.getUInt32]

/-- C9, on the code: `PropertiesChanged` emits nothing when the change set is
not an `a{sv}` argument (here a bare integer) and nothing when a "price" or
"Time" entry carries a value of another type; in both cases the listener is
unchanged. Only an element that is not a name/value pair is reported. -/
theorem PropertiesChanged_silent_decode_failures (l : ServerListener) (obj : ProxyBusObject)
    (interface_name : String) (invalidated : MsgArg) :
    ServerListener.PropertiesChanged l obj interface_name (MsgArg.int32 5) invalidated
      = (l, []) ∧
    ServerListener.PropertiesChanged l obj interface_name
        (delta [("price", MsgArg.string "bad")]) invalidated = (l, []) ∧
    ServerListener.PropertiesChanged l obj interface_name
        (delta [("Time", MsgArg.int32 (-1))]) invalidated = (l, []) ∧
    ServerListener.PropertiesChanged l obj interface_name
        (MsgArg.array "{sv}" [MsgArg.string "price"]) invalidated
      = (l, [Effect.printf "[LISTENER] : invalid property change!\n"]) := by
  simp [ServerListener.PropertiesChanged, delta, MsgArg.getDict, ServerListener.changeEntries,
    ServerListener.changeEntry, MsgArg.getEntry, MsgArg.getInt32, MsgArg.getUInt32]

/-! ## Lemmas on the command line -/

theorem splitTokens_no_space (cs cur : List Char) (hcur : ∀ c ∈ cur, isspace c = false) :
    ∀ t ∈ splitTokens cs cur, t.data ≠ [] ∧ ∀ c ∈ t.data, isspace c = false := by
  induction cs generalizing cur with
  | nil =>
    intro t ht
    by_cases hc : cur = []
    · simp [splitTokens, hc] at ht
    · simp [splitTokens, hc] at ht
      subst ht
      exact ⟨hc, hcur⟩
  | cons c cs ih =>
    intro t ht
    by_cases hs : isspace c = true
    · by_cases hc : cur = []
      · simp only [splitTokens, hs, hc, if_true] at ht
        exact ih [] (by simp) t ht
      · simp only [splitTokens, hs, hc, if_true, if_false, List.mem_cons] at ht
        rcases ht with ht | ht
        · subst ht
          exact ⟨hc, hcur⟩
        · exact ih [] (by simp) t ht
    · simp only [splitTokens, hs] at ht
      refine ih (cur ++ [c]) ?_ t ht
      intro d hd
      rcases List.mem_append.mp hd with hd | hd
      · exact hcur d hd
      · simp only [List.mem_singleton] at hd
        subst hd
        simpa using hs

theorem stoul_invalid (ulongBits : Nat) (arg : String)
    (hsp : ∀ c ∈ arg.data, isspace c = false) (hnum : beginsWithDecimal arg = false) :
    stoul ulongBits arg = Except.error StoulError.invalid_argument := by
  unfold stoul
  unfold beginsWithDecimal at hnum
  cases hd : arg.data with
  | nil => simp
  | cons c rest =>
    rw [hd] at hnum hsp
    have hc : isspace c = false := hsp c (by simp)
    simp only [List.dropWhile_cons, hc]
    by_cases hm : c = '-'
    · subst hm
      cases rest with
      | nil => simp [stoulDigits]
      | cons d ds => simp_all [stoulDigits]
    · by_cases hp : c = '+'
      · subst hp
        cases rest with
        | nil => simp [stoulDigits]
        | cons d ds => simp_all [stoulDigits]
      · simp_all [stoulDigits]

/-! ## Properties of the command line -/

/-- C3, on the code: `stoul` reads "-5" as a number and negates it in the
unsigned type, so "i -5" calls `SetImportWatts` and "e -5" calls
`SetExportWatts` with `2^64 - 5` (`2^32 - 5` where `unsigned long` has 32
bits), and no error is printed. -/
theorem CommandLineInterface_negative_accepted :
    CommandLineInterface 64 "i -5"
      = Except.ok (false, [Event.SetImportWatts 18446744073709551611]) ∧
    CommandLineInterface 64 "e -5"
      = Except.ok (false, [Event.SetExportWatts 18446744073709551611]) ∧
    CommandLineInterface 32 "i -5" = Except.ok (false, [Event.SetImportWatts 4294967291]) ∧
    CommandLineInterface 32 "e -5" = Except.ok (false, [Event.SetExportWatts 4294967291]) := by
  decide

/-- C4: when the line starts with `i` or `e` and its second token does not
begin with a decimal number, `CommandLineInterface` returns `false`, its only
event is the error message, and so no setter is called and nothing escapes the
call. -/
theorem CommandLineInterface_rejects_non_numeric (ulongBits : Nat) (input arg : String)
    (cmd : Char) (hcmd : input.data.head? = some cmd) (hie : cmd = 'i' ∨ cmd = 'e')
    (harg : (tokenize input)[1]? = some arg) (hnum : beginsWithDecimal arg = false) :
    CommandLineInterface ulongBits input
      = Except.ok (false, [Event.print "[ERROR]: Invalid Argument.\n"]) ∧
    setterCalls [Event.print "[ERROR]: Invalid Argument.\n"] = [] := by
  refine ⟨?_, by decide⟩
  have hmem : arg ∈ tokenize input := List.getElem?_mem harg
  have hsp := (splitTokens_no_space input.data [] (by simp) arg hmem).2
  have hst := stoul_invalid ulongBits arg hsp hnum
  unfold CommandLineInterface
  cases hd : input.data with
  | nil => simp [hd] at hcmd
  | cons c rest =>
    rw [hd] at hcmd
    simp only [List.head?_cons, Option.some.injEq] at hcmd
    subst hcmd
    rcases hie with h | h
    · subst h
      simp [setWatts, harg, hst]
    · subst h
      simp [setWatts, harg, hst]

/-- Witness of C4 (the line "i abc"). -/
theorem CommandLineInterface_rejects_non_numeric_witness :
    (tokenize "i abc")[1]? = some "abc" ∧ beginsWithDecimal "abc" = false ∧
    CommandLineInterface 64 "i abc"
      = Except.ok (false, [Event.print "[ERROR]: Invalid Argument.\n"]) :=
  ⟨by decide, by decide,
    (CommandLineInterface_rejects_non_numeric 64 "i abc" "abc" 'i' (by decide) (Or.inl rfl)
      (by decide) (by decide)).1⟩

/-- C10, on the code: for a bare "i" or "e" the token vector has one element
and `tokens[1]` is read all the same, an access past the end that the `catch`
does not handle; the call does not return `false`. -/
theorem CommandLineInterface_bare_command_out_of_bounds (ulongBits : Nat) :
    tokenize "i" = ["i"] ∧ tokenize "e" = ["e"] ∧
    CommandLineInterface ulongBits "i" = Except.error (Fault.outOfBounds 1 1) ∧
    CommandLineInterface ulongBits "e" = Except.error (Fault.outOfBounds 1 1) ∧
    CommandLineInterface ulongBits "i" ≠ Except.ok (false, []) := by
  refine ⟨by decide, by decide, ?_, ?_, ?_⟩
  · rfl
  · rfl
  · intro h
    have h2 : CommandLineInterface ulongBits "i" = Except.error (Fault.outOfBounds 1 1) := rfl
    rw [h2] at h
    cases h

/-! ## Properties of the resource loop -/

/-- C5, on the code: when the tick took 600 ms the value handed to `sleep_for`
is `2^32 - 100` milliseconds, not 0: `time_remaining` is unsigned, so the test
`time_remaining > 0` clamps nothing. At 500 ms it is 0 and at 100 ms it is
400. -/
theorem sleepDuration_not_clamped :
    sleepDuration 600000000 = 4294967196 ∧ 500 < sleepDuration 600000000 ∧
    sleepDuration 501000000 = 4294967295 ∧
    sleepDuration 500000000 = 0 ∧ sleepDuration 100000000 = 400 ∧
    (ResourceLoop 0 0 [(1000000000, 1600000000)]).map (fun c => c.time_remaining)
      = [4294967196] := by
  decide

/-- C6, on the code: with ticks called at 0 ms and at 500 ms, the first of
which took 100 ms, the second tick is given 400, the time since the first
returned; the 100 ms spent inside the first tick are not in it. -/
theorem ResourceLoop_elapsed_omits_tick_time :
    (ResourceLoop 0 0 [(0, 100000000), (500000000, 500000000)]).map (fun c => c.time_past)
      = [0, 400] ∧
    toUnsigned ((500000000 : Int) - 0) (10 ^ 6) = 500 := by
  decide

end DCSBESS
